import Mathlib

/-!
Verification of `build-design-tokens.js`: a shallow embedding in Lean 4 of the
design-token build script (palette flattening, reference resolution, theme-tree
resolution, CSS emission) together with theorems about the spec's claims.

JSON values are embedded as the inductive `Jv`.  JavaScript strings are Lean
`String`s; the JS string operations used by the script (`startsWith`,
`toLowerCase`, the anchored `replace` calls) are modelled as functions on the
character list, which agrees with the JS semantics on the ASCII data the
script manipulates.  The script's mutable `colorLookup` object is modelled as
an explicit association list threaded through the functions; a JS property
assignment prepends a binding, and a property read takes the most recent
binding, so overwriting semantics are preserved.  `console.warn` side effects
are modelled by the separate projection `resolveWarned`.  Code paths on which
the script would throw a `TypeError` are modelled with `Option`, `none`
standing for the thrown exception.  JSON `null` does not occur in the token
data and is not modelled.
-/

namespace DesignTokens

/-- A JSON value: string, number, boolean, array or object.  Objects keep
their fields as an ordered list of key/value pairs (JS object insertion
order). -/
inductive Jv where
  | str (s : String)
  | num (n : Int)
  | bool (b : Bool)
  | arr (elems : List Jv)
  | obj (fields : List (String × Jv))
deriving Repr

/-- Whether a `Jv` is an object (`typeof v === 'object' && !Array.isArray(v)`
in the script). -/
def Jv.isObj : Jv → Bool
  | .obj _ => true
  | _ => false

/-- Whether a `Jv` is a string (`typeof v === 'string'`). -/
def Jv.isStr : Jv → Bool
  | .str _ => true
  | _ => false

/-- JavaScript truthiness of a value, as used by `if (colorLookup[pattern])`. -/
def truthy : Jv → Bool
  | .str s => !s.isEmpty
  | .num n => n != 0
  | .bool b => b
  | .arr _ => true
  | .obj _ => true

/-- JS `s.startsWith(p)`: the characters of `p` are a prefix of those of `s`. -/
def jsStartsWith (s p : String) : Bool :=
  p.data.isPrefixOf s.data

/-- JS `s.toLowerCase()` on the ASCII strings the script handles. -/
def jsToLower (s : String) : String :=
  ⟨s.data.map Char.toLower⟩

/-- JS global replace of every dash with a dot. -/
def dashToDot (s : String) : String :=
  ⟨s.data.map (fun c => if c = '-' then '.' else c)⟩

/-- JS global replace of every dot with a dash. -/
def dotToDash (s : String) : String :=
  ⟨s.data.map (fun c => if c = '.' then '-' else c)⟩

/-- JS global replace deleting every parenthesis. -/
def stripParens (s : String) : String :=
  ⟨s.data.filter (fun c => c != '(' && c != ')')⟩

/-- JS anchored replace dropping one leading dollar sign if present. -/
def stripDollar (s : String) : String :=
  if jsStartsWith s "$" then ⟨s.data.drop 1⟩ else s

/-- JS anchored replace dropping a leading `Colors-` namespace if present. -/
def stripColorsNs (s : String) : String :=
  if jsStartsWith s "Colors-" then ⟨s.data.drop 7⟩ else s

/-- The script's flat `colorLookup` object: an association list, most recent
binding first. -/
abbrev Lookup := List (String × Jv)

/-- JS property assignment `table[k] = v`: the new binding shadows any older
one. -/
def Lookup.set (t : Lookup) (k : String) (v : Jv) : Lookup :=
  (k, v) :: t

/-- JS property read `table[k]`: the most recent binding for `k`, if any. -/
def Lookup.get? (t : Lookup) (k : String) : Option Jv :=
  (List.find? (fun e => e.1 == k) t).map (fun e => e.2)

/-- Property read on a `Jv` (`v[k]`): a field of an object, `undefined`
(`none`) otherwise. -/
def jsGet (v : Jv) (k : String) : Option Jv :=
  match v with
  | .obj fields => (List.find? (fun e => e.1 == k) fields).map (fun e => e.2)
  | _ => none

/-- JS `Object.entries(v)` for the values the script iterates: an object's
fields, a string's indexed characters, an array's indexed elements, and no
entries for numbers or booleans. -/
def jsEntries : Jv → List (String × Jv)
  | .obj fields => fields
  | .str s => (s.data.enum).map (fun p => (toString p.1, Jv.str ⟨[p.2]⟩))
  | .arr es => (es.enum).map (fun p => (toString p.1, p.2))
  | _ => []

/-- The `cleanKey` computed by `resolveValue` from a `$`-prefixed string:
strip the `$` sigil, strip a leading `Colors-` namespace, then apply the
hard-coded alias for `border-default`. -/
def cleanKeyOf (s : String) : String :=
  let c := stripColorsNs (stripDollar s)
  if c = "border-default" then "storm-100" else c

/-- The four lookup patterns `resolveValue` tries, in order: the lowercased
key with parentheses removed, that with dashes turned to dots, the lowercased
key, and that with dashes turned to dots. -/
def candidateKeys (s : String) : List String :=
  let ck := cleanKeyOf s
  let lookupKey := stripParens (jsToLower ck)
  [lookupKey, dashToDot lookupKey, jsToLower ck, dashToDot (jsToLower ck)]

/-- The pattern loop of `resolveValue`: return the first truthy table hit. -/
def tryKeys (t : Lookup) : List String → Option Jv
  | [] => none
  | p :: rest =>
    match Lookup.get? t p with
    | some w => if truthy w then some w else tryKeys t rest
    | none => tryKeys t rest

/-- The script's `resolveValue`: hex literals and non-strings pass through;
`$`-references are resolved through the pattern chain, falling back to the
original string. -/
def resolveValue (t : Lookup) (v : Jv) : Jv :=
  match v with
  | .str s =>
    if jsStartsWith s "#" then .str s
    else if jsStartsWith s "$" then
      match tryKeys t (candidateKeys s) with
      | some w => w
      | none => .str s
    else .str s
  | v => v

/-- Whether `resolveValue` executes its `console.warn` call on this input:
only a `$`-reference with no truthy pattern hit warns. -/
def resolveWarned (t : Lookup) (v : Jv) : Bool :=
  match v with
  | .str s =>
    if jsStartsWith s "#" then false
    else if jsStartsWith s "$" then
      (tryKeys t (candidateKeys s)).isNone
    else false
  | _ => false

/-- Join a path prefix and a key with a dot, as `buildColorLookup` does for
its `lookupKey` (empty prefix means the key stands alone). -/
def joinDot (pfx key : String) : String :=
  if pfx = "" then key else pfx ++ "." ++ key

mutual

/-- One loop iteration of the script's `buildColorLookup`: a non-array object
is recursed into with an extended prefix; a string leaf starting with `#` is
registered under its dot-joined path and its dash-joined path; everything
else is ignored. -/
def buildEntry (t : Lookup) (pfx key : String) : Jv → Lookup
  | .obj fields => buildFields t (joinDot pfx key) fields
  | .str s =>
    if jsStartsWith s "#" then
      let lookupKey := joinDot pfx key
      (Lookup.set t lookupKey (.str s)).set (dotToDash lookupKey) (.str s)
    else t
  | _ => t

/-- The entry loop of `buildColorLookup` over an object's fields. -/
def buildFields (t : Lookup) (pfx : String) : List (String × Jv) → Lookup
  | [] => t
  | (k, v) :: rest => buildFields (buildEntry t pfx k v) pfx rest

end

/-- A two-step property access `colors[a][b]` as the script's special-mapping
block performs it.  `none` models the `TypeError` thrown when `colors[a]` is
`undefined`; `some r` gives the accessed value, `undefined` as `some none`. -/
def deref2 (colors : Jv) (a b : String) : Option (Option Jv) :=
  match jsGet colors a with
  | none => none
  | some v => some (jsGet v b)

/-- Assignment of a possibly-`undefined` value into the lookup table.
Storing `undefined` is observationally the same as not storing (the script
only reads the table back through a truthiness test), so it is a no-op. -/
def Lookup.setOpt (t : Lookup) (k : String) : Option Jv → Lookup
  | some v => Lookup.set t k v
  | none => t

/-- The special-mapping block of the script: eight fixed assignments reading
fixed palette paths.  `none` models the run aborting with a `TypeError`
because one of the dereferenced intermediate objects is missing. -/
def specialMappings (colors : Jv) (t : Lookup) : Option Lookup :=
  match deref2 colors "base" "white", deref2 colors "base" "black",
        deref2 colors "brand" "border", deref2 colors "brand" "ice-200",
        deref2 colors "brand" "app-background-smoke-50",
        deref2 colors "gray-true" "50",
        deref2 colors "storm" "100", deref2 colors "storm" "200" with
  | some w, some b, some br, some ice, some smoke, some gt, some s1, some s2 =>
    some ((((((((Lookup.setOpt t "base-white" w).setOpt "base-black" b).setOpt
      "brand-border" br).setOpt "brand-ice-200" ice).setOpt
      "brand-app-background-smoke-50" smoke).setOpt "gray-true-50" gt).setOpt
      "storm-100" s1).setOpt "storm-200" s2)
  | _, _, _, _, _, _, _, _ => none

/-- The whole lookup-table construction: `buildColorLookup(baseStyles.colors)`
followed by the special-mapping assignments. -/
def mkColorLookup (colors : Jv) : Option Lookup :=
  specialMappings colors (buildFields [] "" (jsEntries colors))

mutual

/-- The field loop of the script's `resolveObject`. -/
def resolveFields (t : Lookup) : List (String × Jv) → List (String × Jv)
  | [] => []
  | (k, v) :: rest => (k, resolveEntry t v) :: resolveFields t rest

/-- One value of the script's `resolveObject` loop: a non-array object is
rebuilt recursively, any other value goes through `resolveValue`. -/
def resolveEntry (t : Lookup) (v : Jv) : Jv :=
  match v with
  | .obj fields => .obj (resolveFields t fields)
  | v => resolveValue t v

end

/-- The script's `resolveObject` applied to the top-level parsed tree. -/
def resolveObject (t : Lookup) (v : Jv) : Jv :=
  .obj (resolveFields t (jsEntries v))

mutual

/-- The field loop of the inner `processObject` of `generateCSS`: each entry
extends the dash-joined name and dispatches on the value. -/
def processFields (indent pfx : String) : List (String × Jv) → List String
  | [] => []
  | (k, v) :: rest =>
    processEntry indent (if pfx = "" then k else pfx ++ "-" ++ k) v ++
      processFields indent pfx rest

/-- One value of `processObject`: a non-array object recurses with the
extended dash-joined name, a string emits one custom-property line, and any
other value (array, number, boolean) emits nothing. -/
def processEntry (indent cssKey : String) : Jv → List String
  | .obj fields => processFields indent cssKey fields
  | .str s => [indent ++ "--" ++ cssKey ++ ": " ++ s ++ ";"]
  | _ => []

end

/-- The script's `generateCSS`: collect the custom-property lines of one
theme's resolved tree (the `theme` argument is unused by the source too). -/
def generateCSS (theme : String) (themeData : Jv) : List String :=
  processFields "  " "" (jsEntries themeData)

/-- The static header comment of the generated stylesheet, with the run
timestamp interpolated. -/
def cssHeader (now : String) : String :=
  "/**\n * Sentinel Design System - Color Tokens\n * \n" ++
  " * Auto-generated from base-styles.json and sentinel-ds-colors-mapped.json\n" ++
  " * Generated at: " ++ now ++ "\n * \n * Usage in Vue:\n * \n * <style>\n" ++
  " * @import \x27./sentinel-ds-colors.css\x27;\n * \n * .card \x7b\n" ++
  " *   background-color: var(--bg-surface-card);\n" ++
  " *   color: var(--text-primary);\n * \x7d\n * </style>\n * \n" ++
  " * Toggle themes:\n" ++
  " * document.documentElement.setAttribute(\x27data-theme\x27, \x27dark\x27);\n" ++
  " */\n\n"

/-- The full generated CSS document: header, a `:root` block holding the
light theme's lines, and a `[data-theme=\"dark\"]` block holding the dark
theme's lines. -/
def cssDoc (now : String) (lightLines darkLines : List String) : String :=
  cssHeader now ++
  ":root \x7b\n  /* Light theme (default) */\n" ++
  String.intercalate "\n" lightLines ++
  "\n\x7d\n\n[data-theme=\x22dark\x22] \x7b\n  /* Dark theme */\n" ++
  String.intercalate "\n" darkLines ++
  "\n\x7d\n"

/-- The pipeline of the script relevant to the resolved tree and the CSS
document: build the lookup table (aborting on a thrown `TypeError`), resolve
the mapped tree, then emit CSS from the resolved `light` and `dark` subtrees
(the script throws if either subtree is absent, since `Object.entries` of
`undefined` throws). -/
def runBuild (colors mapped : Jv) (now : String) : Option (Jv × String) :=
  match mkColorLookup colors with
  | none => none
  | some t =>
    let resolved := resolveObject t mapped
    match jsGet resolved "light", jsGet resolved "dark" with
    | some l, some d =>
      some (resolved, cssDoc now (generateCSS "light" l) (generateCSS "dark" d))
    | _, _ => none

/-! ### Claim-side observation functions

The definitions below do not embed source code; they are observation
functions used to state the spec's claims about the embedded functions
(leaf paths, leaf counts, the registration sequence of the palette loader,
and a literal-hex recognizer taken from the spec's data-model pattern). -/

mutual

/-- The ordered list of leaf key paths of a tree: an object contributes its
fields' paths prefixed by the field key, any other value is a leaf with the
empty path. -/
def keyPaths : Jv → List (List String)
  | .obj fields => keyPathsF fields
  | _ => [[]]

/-- Leaf key paths of an object's field list, in field order. -/
def keyPathsF : List (String × Jv) → List (List String)
  | [] => []
  | (k, v) :: rest => (keyPaths v).map (fun p => k :: p) ++ keyPathsF rest

end

mutual

/-- The ordered list of string leaves of a value, as a path/value pair list;
non-string, non-object values contribute nothing (mirroring which leaves the
CSS emitter prints). -/
def strLeaves : Jv → List (List String × String)
  | .obj fields => strLeavesF fields
  | .str s => [([], s)]
  | _ => []

/-- String leaves of an object's field list, in field order. -/
def strLeavesF : List (String × Jv) → List (List String × String)
  | [] => []
  | (k, v) :: rest => (strLeaves v).map (fun pv => (k :: pv.1, pv.2)) ++ strLeavesF rest

end

mutual

/-- The number of leaves (non-object values) of a value. -/
def leafCount : Jv → Nat
  | .obj fields => leafCountF fields
  | _ => 1

/-- Leaf count of an object's field list. -/
def leafCountF : List (String × Jv) → Nat
  | [] => 0
  | (_, v) :: rest => leafCount v + leafCountF rest

end

mutual

/-- Whether every leaf of a value is a string. -/
def allStrLeaves : Jv → Bool
  | .obj fields => allStrLeavesF fields
  | .str _ => true
  | _ => false

/-- Whether every leaf under an object's field list is a string. -/
def allStrLeavesF : List (String × Jv) → Bool
  | [] => true
  | (_, v) :: rest => allStrLeaves v && allStrLeavesF rest

end

mutual

/-- The sequence of key/value registrations the palette loader performs for
one field, in execution order: a `#`-string leaf registers its dot-joined
path and then its dash-joined path; objects recurse; other values register
nothing. -/
def regsEntry (pfx key : String) : Jv → List (String × Jv)
  | .obj fields => regsFields (joinDot pfx key) fields
  | .str s =>
    if jsStartsWith s "#" then
      [(joinDot pfx key, .str s), (dotToDash (joinDot pfx key), .str s)]
    else []
  | _ => []

/-- The registration sequence over an object's field list. -/
def regsFields (pfx : String) : List (String × Jv) → List (String × Jv)
  | [] => []
  | (k, v) :: rest => regsEntry pfx k v ++ regsFields pfx rest

end

/-- Dash-join a key path, the CSS property-name rule of the spec. -/
def joinDash : List String → String
  | [] => ""
  | [k] => k
  | k :: rest => k ++ "-" ++ joinDash rest

/-- The custom-property line the spec prescribes for a string leaf: two-space
indent, double dash, the dash-joined path, colon, the value, semicolon. -/
def cssDecl (pv : List String × String) : String :=
  "  --" ++ joinDash pv.1 ++ ": " ++ pv.2 ++ ";"

/-- The literal-hex pattern of the spec's data model: a `#` followed by six
to eight hexadecimal digits. -/
def isHexLiteral (s : String) : Bool :=
  match s.data with
  | '#' :: rest =>
    rest.all (fun c => ('0' ≤ c && c ≤ '9') || ('A' ≤ c && c ≤ 'F') ||
      ('a' ≤ c && c ≤ 'f')) && decide (6 ≤ rest.length) && decide (rest.length ≤ 8)
  | _ => false

/-- Whether a substring (as a character list) occurs anywhere in a string's
characters. -/
def containsSub (pat : List Char) : List Char → Bool
  | [] => pat.isPrefixOf []
  | c :: rest => pat.isPrefixOf (c :: rest) || containsSub pat rest

/-- A concrete palette containing every path the special-mapping block
dereferences, used to instantiate theorems with hypotheses. -/
def samplePalette : Jv :=
  .obj [("base", .obj [("white", .str "#FFFFFFFF"), ("black", .str "#000000FF")]),
        ("brand", .obj [("border", .str "#112233FF"), ("ice-200", .str "#223344FF"),
                        ("app-background-smoke-50", .str "#334455FF")]),
        ("gray-true", .obj [("50", .str "#445566FF")]),
        ("storm", .obj [("100", .str "#556677FF"), ("200", .str "#667788FF")])]

/-- The lookup table the script builds from `samplePalette`. -/
def sampleTable : Lookup :=
  (mkColorLookup samplePalette).getD []

/-- Whether every value stored in the table is JS-truthy (palette hex strings
always are). -/
def Lookup.allTruthy (t : Lookup) : Bool :=
  t.all (fun e => truthy e.2)

/-- Whether no value stored in the table is an object (the data model stores
only hex strings). -/
def Lookup.noObjValues (t : Lookup) : Bool :=
  t.all (fun e => !e.2.isObj)

/-- Whether a value is passed through untouched without even being treated as
a reference: any non-string, and any string starting with neither `#` nor
`$`. -/
def passThru : Jv → Bool
  | .str s => !jsStartsWith s "#" && !jsStartsWith s "$"
  | _ => true

/-! ### Helper lemmas -/

/-- A string starting with a dollar sign does not start with a hash. -/
theorem startsWith_dollar_not_hash (s : String) (h : jsStartsWith s "$" = true) :
    jsStartsWith s "#" = false := by
  obtain ⟨data⟩ := s
  cases data with
  | nil => simp [jsStartsWith, List.isPrefixOf] at h
  | cons c cs =>
    have h1 : ("$" : String).data = ['$'] := rfl
    have h2 : ("#" : String).data = ['#'] := rfl
    simp [jsStartsWith, h1, h2, List.isPrefixOf] at h ⊢
    subst h
    decide

/-- A string matching the literal-hex pattern starts with a hash. -/
theorem hex_startsWith_hash (s : String) (h : isHexLiteral s = true) :
    jsStartsWith s "#" = true := by
  obtain ⟨data⟩ := s
  unfold isHexLiteral at h
  split at h
  next rest heq =>
    have h2 : ("#" : String).data = ['#'] := rfl
    simp [jsStartsWith, h2, List.isPrefixOf]
    rw [show data = '#' :: rest from heq]
    exact ⟨rest, rfl⟩
  next => exact absurd h (by simp)

/-- In a table whose stored values are all truthy, every successful read
returns a truthy value. -/
theorem get?_truthy {t : Lookup} (ht : Lookup.allTruthy t = true) {k : String}
    {w : Jv} (h : Lookup.get? t k = some w) : truthy w = true := by
  unfold Lookup.get? at h
  cases hf : List.find? (fun e => e.1 == k) t with
  | none => simp [hf] at h
  | some e =>
    simp [hf] at h
    have hm := List.mem_of_find?_eq_some hf
    have ha := (List.all_eq_true.mp ht) e hm
    rw [h] at ha
    exact ha

/-- Over a table whose values are all truthy, the pattern loop returns the
first key present in the table. -/
theorem tryKeys_eq_findSome (t : Lookup) (ht : Lookup.allTruthy t = true) :
    ∀ ps : List String, tryKeys t ps = ps.findSome? (Lookup.get? t)
  | [] => rfl
  | p :: rest => by
    unfold tryKeys
    cases hg : Lookup.get? t p with
    | none => simp [List.findSome?_cons, hg, tryKeys_eq_findSome t ht rest]
    | some w => simp [List.findSome?_cons, hg, get?_truthy ht hg]

/-- The pattern loop misses when no candidate key is present. -/
theorem tryKeys_eq_none (t : Lookup) :
    ∀ ps : List String, ps.all (fun p => (Lookup.get? t p).isNone) = true →
      tryKeys t ps = none
  | [], _ => rfl
  | p :: rest, h => by
    simp [List.all_cons] at h
    unfold tryKeys
    cases hg : Lookup.get? t p with
    | none =>
      refine tryKeys_eq_none t rest ?_
      simp only [List.all_eq_true]
      intro x hx
      simp [h.2 x hx]
    | some w => simp [hg] at h

/-! ### Claims about the Reference Resolver -/

/-- C4: for every value matching the spec's literal-hex pattern, the
Reference Resolver returns it unchanged and emits no warning — literal colors
bypass resolution entirely (identity law). -/
theorem literal_hex_identity (t : Lookup) (s : String) (h : isHexLiteral s = true) :
    resolveValue t (.str s) = .str s ∧ resolveWarned t (.str s) = false := by
  have hh := hex_startsWith_hash s h
  simp [resolveValue, resolveWarned, hh]

/-- Witness for `literal_hex_identity` at the hex literal `#FFFFFFFF`. -/
theorem literal_hex_identity_witness :
    resolveValue [] (.str "#FFFFFFFF") = .str "#FFFFFFFF" ∧
      resolveWarned [] (.str "#FFFFFFFF") = false :=
  literal_hex_identity [] "#FFFFFFFF" (by decide)

/-- C10: non-string values, and strings starting with neither `#` nor `$`,
pass through the Reference Resolver unchanged with no warning; and only a
`$`-prefixed string can trigger the resolution-failure warning. -/
theorem resolver_pass_through :
    (∀ (t : Lookup) (v : Jv), passThru v = true →
        resolveValue t v = v ∧ resolveWarned t v = false) ∧
    (∀ (t : Lookup) (v : Jv), resolveWarned t v = true →
        ∃ s, v = .str s ∧ jsStartsWith s "$" = true) := by
  constructor
  · intro t v h
    cases v with
    | str s =>
      simp [passThru] at h
      simp [resolveValue, resolveWarned, h.1, h.2]
    | num n => exact ⟨rfl, rfl⟩
    | bool b => exact ⟨rfl, rfl⟩
    | arr es => exact ⟨rfl, rfl⟩
    | obj fs => exact ⟨rfl, rfl⟩
  · intro t v h
    cases v with
    | str s =>
      refine ⟨s, rfl, ?_⟩
      by_cases h2 : jsStartsWith s "$" = true
      · exact h2
      · by_cases h1 : jsStartsWith s "#" = true <;>
          simp [resolveWarned, h1, h2] at h
    | num n => simp [resolveWarned] at h
    | bool b => simp [resolveWarned] at h
    | arr es => simp [resolveWarned] at h
    | obj fs => simp [resolveWarned] at h

/-- Witness for `resolver_pass_through` at a number and a plain string. -/
theorem resolver_pass_through_witness :
    resolveValue [] (.num 5) = .num 5 ∧
      resolveValue [] (.str "plain") = .str "plain" ∧
      resolveWarned [] (.str "plain") = false :=
  ⟨(resolver_pass_through.1 [] (.num 5) (by decide)).1,
   (resolver_pass_through.1 [] (.str "plain") (by decide)).1,
   (resolver_pass_through.1 [] (.str "plain") (by decide)).2⟩

/-- C2: a symbolic `$`-reference none of whose four candidate keys is present
in the lookup table resolves to the original string unchanged and emits the
resolution-failure warning; the embedded resolver is a total function, so it
can neither throw nor abort the batch. -/
theorem unresolved_reference_kept
    (t : Lookup) (s : String)
    (hs : jsStartsWith s "$" = true)
    (hmiss : (candidateKeys s).all (fun p => (Lookup.get? t p).isNone) = true) :
    resolveValue t (.str s) = .str s ∧ resolveWarned t (.str s) = true := by
  have hh := startsWith_dollar_not_hash s hs
  have hk := tryKeys_eq_none t (candidateKeys s) hmiss
  simp [resolveValue, resolveWarned, hh, hs, hk]

/-- Witness for `unresolved_reference_kept`: the spec's unresolvable
reference against the table built from the sample palette. -/
theorem unresolved_reference_kept_witness :
    resolveValue sampleTable (.str "$Colors-Ghost-999") = .str "$Colors-Ghost-999" ∧
      resolveWarned sampleTable (.str "$Colors-Ghost-999") = true :=
  unresolved_reference_kept sampleTable "$Colors-Ghost-999" (by decide) (by decide)

/-- C1: for a symbolic `$`-reference, the Reference Resolver tries the four
candidate keys in order and returns the value of the first one present in the
lookup table, provided the stored values are truthy (palette hex strings
always are). -/
theorem resolver_first_hit
    (t : Lookup) (s : String) (v : Jv)
    (ht : Lookup.allTruthy t = true)
    (hs : jsStartsWith s "$" = true)
    (hv : (candidateKeys s).findSome? (Lookup.get? t) = some v) :
    resolveValue t (.str s) = v := by
  have hh := startsWith_dollar_not_hash s hs
  simp [resolveValue, hh, hs, tryKeys_eq_findSome t ht (candidateKeys s), hv]

/-- Witness for `resolver_first_hit`: the spec's scenario reference
`$Colors-Base-white` against the table built from the sample palette. -/
theorem resolver_first_hit_witness :
    resolveValue sampleTable (.str "$Colors-Base-white") = .str "#FFFFFFFF" :=
  resolver_first_hit sampleTable "$Colors-Base-white" (.str "#FFFFFFFF")
    (by decide) (by decide) rfl

mutual

/-- The `#`-string leaves of a value together with their key paths, in
traversal order. -/
def hexLeaves : Jv → List (List String × String)
  | .obj fields => hexLeavesF fields
  | .str s => if jsStartsWith s "#" then [([], s)] else []
  | _ => []

/-- The `#`-string leaves under an object's field list. -/
def hexLeavesF : List (String × Jv) → List (List String × String)
  | [] => []
  | (k, v) :: rest => (hexLeaves v).map (fun pv => (k :: pv.1, pv.2)) ++ hexLeavesF rest

end

/-! ### Claims about the Palette Loader -/

mutual

/-- The palette loader equals a fold of its registration sequence. -/
theorem buildEntry_eq_regs (t : Lookup) (pfx key : String) :
    (v : Jv) → buildEntry t pfx key v =
      (regsEntry pfx key v).foldl (fun a kv => Lookup.set a kv.1 kv.2) t
  | .obj fields => by
    simp only [buildEntry, regsEntry]
    exact buildFields_eq_regs t (joinDot pfx key) fields
  | .str s => by
    simp only [buildEntry, regsEntry]
    split <;> rfl
  | .num n => rfl
  | .bool b => rfl
  | .arr es => rfl

/-- The field loop of the palette loader equals a fold of the registration
sequence of the fields. -/
theorem buildFields_eq_regs (t : Lookup) (pfx : String) :
    (fs : List (String × Jv)) → buildFields t pfx fs =
      (regsFields pfx fs).foldl (fun a kv => Lookup.set a kv.1 kv.2) t
  | [] => rfl
  | (k, v) :: rest => by
    simp only [buildFields, regsFields, List.foldl_append]
    rw [← buildEntry_eq_regs t pfx k v]
    exact buildFields_eq_regs (buildEntry t pfx k v) pfx rest

end

/-- Folding `set` over a registration list prepends the reversed list. -/
theorem foldl_set_eq (l : List (String × Jv)) (t : Lookup) :
    l.foldl (fun a kv => Lookup.set a kv.1 kv.2) t = l.reverse ++ t := by
  induction l generalizing t with
  | nil => rfl
  | cons kv rest ih =>
    simp [List.foldl_cons, ih, Lookup.set, List.reverse_cons, List.append_assoc]

/-- The pair of registrations the spec prescribes for one `#`-leaf: the
accumulated dot-joined key first, then its dash-converted form, both bound to
the leaf value. -/
def regPair (pfx : String) (pv : List String × String) : List (String × Jv) :=
  [(pv.1.foldl joinDot pfx, Jv.str pv.2),
   (dotToDash (pv.1.foldl joinDot pfx), Jv.str pv.2)]

mutual

/-- The registration sequence of one field lists, for each `#`-string leaf,
its accumulated dot-joined key and then its dash-joined key. -/
theorem regsEntry_eq_hexLeaves (pfx key : String) :
    (v : Jv) → regsEntry pfx key v =
      ((hexLeaves v).map (fun pv => (key :: pv.1, pv.2))).flatMap (regPair pfx)
  | .obj fields => by
    simp only [regsEntry, hexLeaves]
    rw [regsFields_eq_hexLeaves (joinDot pfx key) fields]
    rw [List.flatMap_map]
    rfl
  | .str s => by
    simp only [regsEntry, hexLeaves]
    split <;> simp [regPair, joinDot]
  | .num n => rfl
  | .bool b => rfl
  | .arr es => rfl

/-- The registration sequence of a field list, as a flat map over its
`#`-string leaves. -/
theorem regsFields_eq_hexLeaves (pfx : String) :
    (fs : List (String × Jv)) → regsFields pfx fs = (hexLeavesF fs).flatMap (regPair pfx)
  | [] => rfl
  | (k, v) :: rest => by
    simp only [regsFields, hexLeavesF, List.flatMap_append]
    rw [regsEntry_eq_hexLeaves pfx k v, regsFields_eq_hexLeaves pfx rest]

end

/-- C7: reading any key from the palette loader's finished table yields the
value of the last registration of that key, where the registration sequence
registers every `#`-string leaf under both its accumulated dot-joined path
key and that key's dash-joined form, in traversal order — so a key written by
two distinct leaves holds the later-registered value (last-write-wins). -/
theorem palette_loader_last_write_wins :
    (∀ (fs : List (String × Jv)) (k : String),
      Lookup.get? (buildFields [] "" fs) k =
        ((regsFields "" fs).reverse.find? (fun e => e.1 == k)).map (fun e => e.2)) ∧
    (∀ (pfx : String) (fs : List (String × Jv)),
      regsFields pfx fs = (hexLeavesF fs).flatMap (regPair pfx)) := by
  constructor
  · intro fs k
    rw [buildFields_eq_regs, foldl_set_eq]
    simp [Lookup.get?]
  · exact regsFields_eq_hexLeaves

/-! ### Claims about the special-mapping block -/

/-- The spec's minimal scenario palette, whose only content is
`colors.base.white`. -/
def minimalPalette : Jv :=
  .obj [("base", .obj [("white", .str "#FFFFFFFF")])]

/-- A minimal theme mapping tree for the spec's scenario. -/
def minimalMapped : Jv :=
  .obj [("light", .obj [("bg", .obj [("primary", .str "$Colors-Base-white")])]),
        ("dark", .obj [("bg", .obj [("primary", .str "$Colors-Base-white")])])]

/-- C9: the special-mapping block dereferences fixed palette paths, so a
palette missing any of the intermediate objects `base`, `brand`, `gray-true`
or `storm` makes the lookup-table construction throw, and therefore the whole
run aborts before a single theme leaf is resolved. -/
theorem missing_intermediate_aborts
    (colors mapped : Jv) (now : String)
    (h : jsGet colors "base" = none ∨ jsGet colors "brand" = none ∨
         jsGet colors "gray-true" = none ∨ jsGet colors "storm" = none) :
    mkColorLookup colors = none ∧ runBuild colors mapped now = none := by
  have hsp : ∀ t : Lookup, specialMappings colors t = none := by
    intro t
    unfold specialMappings
    split
    · rcases h with h | h | h | h <;> simp_all [deref2]
    · rfl
  have hm : mkColorLookup colors = none := hsp _
  exact ⟨hm, by simp [runBuild, hm]⟩

/-- Witness for `missing_intermediate_aborts`: the spec's minimal scenario
palette lacks `colors.brand`, so the whole run aborts. -/
theorem missing_intermediate_aborts_witness :
    mkColorLookup minimalPalette = none ∧
      runBuild minimalPalette minimalMapped "2026-01-01T00:00:00.000Z" = none :=
  missing_intermediate_aborts minimalPalette minimalMapped "2026-01-01T00:00:00.000Z"
    (Or.inr (Or.inl rfl))

/-- C8: the alias table redirects the irregular spelling `border-default`,
so both `$border-default` and `$Colors-border-default` resolve to the palette
value stored at `colors.storm['100']`, not to a value under the literal
spelling `border-default`. -/
theorem border_default_alias
    (colors : Jv) (t : Lookup) (v : Jv)
    (htab : mkColorLookup colors = some t)
    (hv : deref2 colors "storm" "100" = some (some v))
    (htr : truthy v = true) :
    resolveValue t (.str "$border-default") = v ∧
      resolveValue t (.str "$Colors-border-default") = v := by
  have hget : Lookup.get? t "storm-100" = some v := by
    unfold mkColorLookup specialMappings at htab
    split at htab
    next w b br ice smoke gt s1 s2 hw hb hbr hice hsm hgt hs1 hs2 =>
      rw [hv] at hs1
      cases hs1
      cases htab
      have h200 : (("storm-200" : String) == "storm-100") = false := by decide
      cases s2 with
      | none => simp [Lookup.setOpt, Lookup.set, Lookup.get?, List.find?]
      | some y => simp [Lookup.setOpt, Lookup.set, Lookup.get?, List.find?, h200]
    next => exact absurd htab (by simp)
  have resolves : ∀ s : String, jsStartsWith s "#" = false → jsStartsWith s "$" = true →
      candidateKeys s = ["storm-100", "storm.100", "storm-100", "storm.100"] →
      resolveValue t (.str s) = v := by
    intro s h1 h2 h3
    have htry : tryKeys t (candidateKeys s) = some v := by
      rw [h3]
      unfold tryKeys
      rw [hget]
      simp [htr]
    simp [resolveValue, h1, h2, htry]
  exact ⟨resolves _ (by decide) (by decide) rfl, resolves _ (by decide) (by decide) rfl⟩

/-- Witness for `border_default_alias` on the sample palette, where
`colors.storm['100']` holds `#556677FF`. -/
theorem border_default_alias_witness :
    resolveValue sampleTable (.str "$border-default") = .str "#556677FF" ∧
      resolveValue sampleTable (.str "$Colors-border-default") = .str "#556677FF" :=
  border_default_alias samplePalette sampleTable (.str "#556677FF") rfl rfl (by decide)

/-! ### Claims about the Theme Tree Resolver -/

/-- Any value the pattern loop returns was read from the table. -/
theorem tryKeys_mem (t : Lookup) :
    ∀ (ps : List String) (w : Jv), tryKeys t ps = some w →
      ∃ p, Lookup.get? t p = some w
  | [], w, h => by simp [tryKeys] at h
  | p :: rest, w, h => by
    unfold tryKeys at h
    split at h
    next u heq =>
      by_cases hu : truthy u = true
      · rw [if_pos hu] at h
        exact ⟨p, heq.trans h⟩
      · rw [if_neg hu] at h
        exact tryKeys_mem t rest w h
    next heq => exact tryKeys_mem t rest w h

/-- In a table storing no objects, every successful read is a non-object. -/
theorem get?_notObj {t : Lookup} (ht : Lookup.noObjValues t = true) {k : String}
    {w : Jv} (h : Lookup.get? t k = some w) : w.isObj = false := by
  unfold Lookup.get? at h
  cases hf : List.find? (fun e => e.1 == k) t with
  | none => simp [hf] at h
  | some e =>
    simp [hf] at h
    have hm := List.mem_of_find?_eq_some hf
    have ha := (List.all_eq_true.mp ht) e hm
    rw [h] at ha
    simpa using ha

/-- Over a table storing no objects, the Reference Resolver maps non-objects
to non-objects. -/
theorem resolveValue_notObj (t : Lookup) (ht : Lookup.noObjValues t = true)
    (v : Jv) (hv : v.isObj = false) : (resolveValue t v).isObj = false := by
  cases v with
  | str s =>
    unfold resolveValue
    by_cases h1 : jsStartsWith s "#" = true
    · simp [h1, Jv.isObj]
    · simp only [h1]
      by_cases h2 : jsStartsWith s "$" = true
      · simp only [h2, if_true, if_false, Bool.false_eq_true]
        cases hk : tryKeys t (candidateKeys s) with
        | none => simp [Jv.isObj]
        | some w =>
          obtain ⟨p, hp⟩ := tryKeys_mem t (candidateKeys s) w hk
          simpa using get?_notObj ht hp
      · simp [h1, h2, Jv.isObj]
  | num n => exact hv
  | bool b => exact hv
  | arr es => exact hv
  | obj fs => exact absurd hv (by simp [Jv.isObj])

/-- A non-object value is a single leaf with the empty key path. -/
theorem keyPaths_of_notObj (v : Jv) (hv : v.isObj = false) : keyPaths v = [[]] := by
  cases v <;> simp_all [keyPaths, Jv.isObj]

mutual

/-- Resolving one entry value preserves its leaf key paths. -/
theorem keyPaths_resolveEntry (t : Lookup) (ht : Lookup.noObjValues t = true) :
    (v : Jv) → keyPaths (resolveEntry t v) = keyPaths v
  | .obj fields => by
    simp only [resolveEntry, keyPaths]
    exact keyPaths_resolveFields t ht fields
  | .str s => by
    rw [show resolveEntry t (.str s) = resolveValue t (.str s) from rfl]
    rw [keyPaths_of_notObj _ (resolveValue_notObj t ht (.str s) rfl)]
    rfl
  | .num n => rfl
  | .bool b => rfl
  | .arr es => by
    rw [show resolveEntry t (.arr es) = resolveValue t (.arr es) from rfl]
    rfl

/-- Resolving a field list preserves the ordered leaf key paths. -/
theorem keyPaths_resolveFields (t : Lookup) (ht : Lookup.noObjValues t = true) :
    (fs : List (String × Jv)) → keyPathsF (resolveFields t fs) = keyPathsF fs
  | [] => rfl
  | (k, v) :: rest => by
    simp only [resolveFields, keyPathsF]
    rw [keyPaths_resolveEntry t ht v, keyPaths_resolveFields t ht rest]

end

/-- C5: the Theme Tree Resolver rebuilds object nodes recursively, passes
every non-object leaf through the Reference Resolver, and produces a tree
with exactly the same ordered list of leaf key paths, provided the lookup
table stores no objects (it stores palette hex strings); the embedding is a
pure function, so the input tree cannot be mutated. -/
theorem resolve_preserves_shape
    (t : Lookup) (ht : Lookup.noObjValues t = true) (fs : List (String × Jv)) :
    keyPaths (resolveObject t (.obj fs)) = keyPaths (.obj fs) := by
  simp only [resolveObject, jsEntries, keyPaths]
  exact keyPaths_resolveFields t ht fs

/-- Witness for `resolve_preserves_shape`: the spec's scenario mapping tree
resolved against the sample table. -/
theorem resolve_preserves_shape_witness :
    keyPaths (resolveObject sampleTable minimalMapped) = keyPaths minimalMapped := by
  have h := resolve_preserves_shape sampleTable (by decide)
    [("light", .obj [("bg", .obj [("primary", .str "$Colors-Base-white")])]),
     ("dark", .obj [("bg", .obj [("primary", .str "$Colors-Base-white")])])]
  exact h

/-! ### Claims about the CSS Emitter -/

/-- Whether every top-level key of a field list is a non-empty string (the
emitter's prefix-truthiness test makes empty leading segments vanish from
property names otherwise). -/
def topKeysNE (fs : List (String × Jv)) : Bool :=
  fs.all (fun e => !(e.1 == ""))

/-- Every string-leaf path of a field list is non-empty. -/
theorem strLeaves_path_ne :
    (fs : List (String × Jv)) → ∀ pv ∈ strLeavesF fs, pv.1 ≠ []
  | [], pv, h => by simp [strLeavesF] at h
  | (k, v) :: rest, pv, h => by
    simp only [strLeavesF, List.mem_append, List.mem_map] at h
    rcases h with ⟨q, _, rfl⟩ | h
    · simp
    · exact strLeaves_path_ne rest pv h

/-- Dash-joining a non-empty path starting at `k` prepends `k` and a dash. -/
theorem joinDash_cons (k : String) (p : List String) (hp : p ≠ []) :
    joinDash (k :: p) = k ++ "-" ++ joinDash p := by
  cases p with
  | nil => exact absurd rfl hp
  | cons a as => rfl

/-- A string containing a dash between two parts is non-empty. -/
theorem append_dash_ne (a b : String) : a ++ "-" ++ b ≠ "" := by
  intro h
  have hd := congrArg String.data h
  simp at hd

/-- Over a non-empty accumulated prefix, the CSS line collector emits, per
string leaf in order, the prefix, a dash and the dash-joined relative path. -/
theorem processFields_ne (ind : String) :
    (pfx : String) → pfx ≠ "" → (fs : List (String × Jv)) →
      processFields ind pfx fs = (strLeavesF fs).map
        (fun pv => ind ++ "--" ++ (pfx ++ "-" ++ joinDash pv.1) ++ ": " ++ pv.2 ++ ";")
  | pfx, hp, [] => by simp [processFields, strLeavesF]
  | pfx, hp, (k, v) :: rest => by
    have ihrest := processFields_ne ind pfx hp rest
    cases v with
    | obj inner =>
      have ihinner := processFields_ne ind (pfx ++ "-" ++ k) (append_dash_ne pfx k) inner
      simp only [processFields, processEntry, strLeavesF, strLeaves, if_neg hp, List.map_append,
        List.map_map, ihrest, ihinner]
      congr 1
      refine List.map_congr_left ?_
      intro pv hpv
      have hne := strLeaves_path_ne inner pv hpv
      simp [Function.comp, joinDash_cons k pv.1 hne, String.append_assoc]
    | str s =>
      simp only [processFields, processEntry, strLeavesF, strLeaves, if_neg hp, List.map_append,
        List.map_map, ihrest, List.map_cons, List.map_nil, joinDash]
    | num n =>
      simp only [processFields, processEntry, strLeavesF, strLeaves, List.map_append, ihrest]
      rfl
    | bool b =>
      simp only [processFields, processEntry, strLeavesF, strLeaves, List.map_append, ihrest]
      rfl
    | arr es =>
      simp only [processFields, processEntry, strLeavesF, strLeaves, List.map_append, ihrest]
      rfl

/-- With non-empty top-level keys, the CSS line collector started at the
empty prefix emits exactly the spec's declaration per string leaf. -/
theorem processFields_top :
    (fs : List (String × Jv)) → topKeysNE fs = true →
      processFields "  " "" fs = (strLeavesF fs).map cssDecl
  | [], _ => by simp [processFields, strLeavesF]
  | (k, v) :: rest, h => by
    have hk : ¬ k = "" := by
      have := (List.all_eq_true.mp h) (k, v) (by simp)
      simpa using this
    have hrest : topKeysNE rest = true := by
      refine List.all_eq_true.mpr ?_
      intro e he
      exact (List.all_eq_true.mp h) e (by simp [he])
    have ihrest := processFields_top rest hrest
    have hck : (if ("" : String) = "" then k else "" ++ "-" ++ k) = k := if_pos rfl
    cases v with
    | obj inner =>
      have ihinner := processFields_ne "  " k hk inner
      simp only [processFields, processEntry, strLeavesF, strLeaves, List.map_append,
        List.map_map, ihrest, hck, if_true, ihinner]
      congr 1
      refine List.map_congr_left ?_
      intro pv hpv
      have hne := strLeaves_path_ne inner pv hpv
      simp [Function.comp, cssDecl, joinDash_cons k pv.1 hne, String.append_assoc]
    | str s =>
      simp only [processFields, processEntry, strLeavesF, strLeaves, List.map_append,
        List.map_map, ihrest, List.map_cons, List.map_nil, cssDecl, joinDash, hck,
        if_true]
      rfl
    | num n =>
      simp only [processFields, processEntry, strLeavesF, strLeaves, List.map_append, ihrest]
      rfl
    | bool b =>
      simp only [processFields, processEntry, strLeavesF, strLeaves, List.map_append, ihrest]
      rfl
    | arr es =>
      simp only [processFields, processEntry, strLeavesF, strLeaves, List.map_append, ihrest]
      rfl

mutual

/-- Under all-string leaves, the string-leaf list of a value has one entry
per leaf. -/
theorem strLeaves_len_v :
    (v : Jv) → allStrLeaves v = true → (strLeaves v).length = leafCount v
  | .obj fields, h => by
    simpa [strLeaves, leafCount] using strLeaves_len_f fields (by simpa [allStrLeaves] using h)
  | .str s, _ => rfl
  | .num n, h => by simp [allStrLeaves] at h
  | .bool b, h => by simp [allStrLeaves] at h
  | .arr es, h => by simp [allStrLeaves] at h

/-- Under all-string leaves, the string-leaf list of a field list has one
entry per leaf. -/
theorem strLeaves_len_f :
    (fs : List (String × Jv)) → allStrLeavesF fs = true →
      (strLeavesF fs).length = leafCountF fs
  | [], _ => rfl
  | (k, v) :: rest, h => by
    have h2 : allStrLeaves v = true ∧ allStrLeavesF rest = true := by
      simpa [allStrLeavesF, Bool.and_eq_true] using h
    simp only [strLeavesF, leafCountF, List.length_append, List.length_map]
    rw [strLeaves_len_v v h2.1, strLeaves_len_f rest h2.2]

end

/-- C6 counterexample: with an empty-string top-level key, the emitter's
prefix-truthiness test drops the leading empty segment, so the emitted
property name is not the dash-join of the leaf's full key path: the code
emits `--a` where the claimed naming rule prescribes `---a`. -/
theorem css_name_counterexample :
    generateCSS "light" (.obj [("", .obj [("a", .str "#111111FF")])]) =
        ["  --a: #111111FF;"] ∧
      (strLeavesF (jsEntries (.obj [("", .obj [("a", .str "#111111FF")])]))).map
          cssDecl = ["  ---a: #111111FF;"] ∧
      ("  --a: #111111FF;" : String) ≠ "  ---a: #111111FF;" :=
  ⟨by simp [generateCSS, jsEntries, processFields, processEntry],
   by simp [jsEntries, strLeavesF, strLeaves, cssDecl, joinDash],
   by decide⟩

/-- C6 (amended): for theme trees whose top-level keys are non-empty, the CSS
Emitter emits exactly one custom-property declaration per string leaf, named
by the dash-joined full key path in traversal order with the leaf's value;
under the data-model guarantee that all resolved leaves are strings, the
total declaration count across both themes equals the total leaf count, with
no deduplication. -/
theorem css_decl_per_leaf
    (ld dd : Jv)
    (hl : topKeysNE (jsEntries ld) = true)
    (hd : topKeysNE (jsEntries dd) = true) :
    (generateCSS "light" ld = (strLeavesF (jsEntries ld)).map cssDecl ∧
     generateCSS "dark" dd = (strLeavesF (jsEntries dd)).map cssDecl) ∧
    (allStrLeavesF (jsEntries ld) = true → allStrLeavesF (jsEntries dd) = true →
      (generateCSS "light" ld).length + (generateCSS "dark" dd).length =
        leafCountF (jsEntries ld) + leafCountF (jsEntries dd)) := by
  have h1 : generateCSS "light" ld = (strLeavesF (jsEntries ld)).map cssDecl := by
    simp only [generateCSS]
    exact processFields_top (jsEntries ld) hl
  have h2 : generateCSS "dark" dd = (strLeavesF (jsEntries dd)).map cssDecl := by
    simp only [generateCSS]
    exact processFields_top (jsEntries dd) hd
  refine ⟨⟨h1, h2⟩, ?_⟩
  intro ha hb
  rw [h1, h2, List.length_map, List.length_map,
    strLeaves_len_f (jsEntries ld) ha, strLeaves_len_f (jsEntries dd) hb]

/-- Witness for `css_decl_per_leaf`: the spec's third scenario, two themes
both defining `text.primary`. -/
theorem css_decl_per_leaf_witness :
    (generateCSS "light" (.obj [("text", .obj [("primary", .str "#111111FF")])]) =
        ["  --text-primary: #111111FF;"] ∧
      generateCSS "dark" (.obj [("text", .obj [("primary", .str "#222222FF")])]) =
        ["  --text-primary: #222222FF;"]) ∧
    (generateCSS "light" (.obj [("text", .obj [("primary", .str "#111111FF")])])).length +
      (generateCSS "dark" (.obj [("text", .obj [("primary", .str "#222222FF")])])).length = 2 := by
  have h := css_decl_per_leaf
    (.obj [("text", .obj [("primary", .str "#111111FF")])])
    (.obj [("text", .obj [("primary", .str "#222222FF")])])
    (by decide) (by decide)
  refine ⟨⟨?_, ?_⟩, ?_⟩
  · rw [h.1.1]
    simp [jsEntries, strLeavesF, strLeaves, cssDecl, joinDash]
  · rw [h.1.2]
    simp [jsEntries, strLeavesF, strLeaves, cssDecl, joinDash]
  · rw [h.2 (by decide) (by decide)]
    rfl

/-- Resolving a field list commutes with field lookup. -/
theorem find?_resolveFields (t : Lookup) (k : String) :
    (fs : List (String × Jv)) →
      List.find? (fun e => e.1 == k) (resolveFields t fs) =
        (List.find? (fun e => e.1 == k) fs).map (fun e => (e.1, resolveEntry t e.2))
  | [] => rfl
  | (k', v) :: rest => by
    by_cases hk : (k' == k) = true
    · rw [show resolveFields t ((k', v) :: rest) =
          (k', resolveEntry t v) :: resolveFields t rest from by
            simp [resolveFields]]
      rw [List.find?_cons_of_pos _ (by simpa using hk),
          List.find?_cons_of_pos _ (by simpa using hk)]
      rfl
    · rw [show resolveFields t ((k', v) :: rest) =
          (k', resolveEntry t v) :: resolveFields t rest from by
            simp [resolveFields]]
      rw [List.find?_cons_of_neg _ (by simpa using hk),
          List.find?_cons_of_neg _ (by simpa using hk)]
      exact find?_resolveFields t k rest

/-- Reading a theme subtree from the resolved tree yields the resolved
subtree. -/
theorem jsGet_resolveObject (t : Lookup) (m : Jv) (k : String) (l : Jv)
    (h : jsGet m k = some l) :
    jsGet (resolveObject t m) k = some (resolveEntry t l) := by
  cases m with
  | obj fs =>
    simp only [jsGet, resolveObject, jsEntries] at h ⊢
    rw [find?_resolveFields t k fs]
    cases hf : List.find? (fun e => e.1 == k) fs with
    | none => rw [hf] at h; simp at h
    | some e =>
      rw [hf] at h
      simp at h ⊢
      rw [h]
  | str s => simp [jsGet] at h
  | num n => simp [jsGet] at h
  | bool b => simp [jsGet] at h
  | arr es => simp [jsGet] at h

/-- A theme mapping tree containing a third theme `sepia` besides `light` and
`dark`. -/
def sepiaMapped : Jv :=
  .obj [("light", .obj [("a", .str "#111111FF")]),
        ("dark", .obj [("a", .str "#222222FF")]),
        ("sepia", .obj [("a", .str "#333333FF")])]

set_option maxRecDepth 20000 in
/-- C3 counterexample: a theme named `sepia`, present in the theme mapping
tree, gets no block at all: the generated stylesheet contains no occurrence
of the selector `[data-theme=\"sepia\"]`. -/
theorem css_no_sepia_block :
    (jsGet sepiaMapped "sepia").isSome = true ∧
      (runBuild samplePalette sepiaMapped "2026-01-01T00:00:00.000Z").map
        (fun rc => containsSub ("[data-theme=\x22sepia\x22]").data rc.2.data) =
        some false :=
  ⟨rfl, rfl⟩

/-- C3 (amended): the CSS Emitter emits the `:root` block from the resolved
`light` subtree and a single `[data-theme=\"dark\"]` attribute-selector block
from the resolved `dark` subtree; every other theme present in the Theme
Mapping Tree is ignored — the emitted document depends on nothing but those
two subtrees. -/
theorem css_blocks_light_dark
    (colors m : Jv) (t : Lookup) (now : String) (l d : Jv)
    (htab : mkColorLookup colors = some t)
    (hl : jsGet m "light" = some l)
    (hd : jsGet m "dark" = some d) :
    (runBuild colors m now).map (fun rc => rc.2) =
      some (cssDoc now (generateCSS "light" (resolveEntry t l))
                       (generateCSS "dark" (resolveEntry t d))) := by
  have h1 := jsGet_resolveObject t m "light" l hl
  have h2 := jsGet_resolveObject t m "dark" d hd
  simp [runBuild, htab, h1, h2]

/-- Witness for `css_blocks_light_dark`: the spec's scenario mapping against
the sample palette. -/
theorem css_blocks_light_dark_witness :
    (runBuild samplePalette minimalMapped "2026-01-01T00:00:00.000Z").map
        (fun rc => rc.2) =
      some (cssDoc "2026-01-01T00:00:00.000Z"
        (generateCSS "light" (resolveEntry sampleTable
          (.obj [("bg", .obj [("primary", .str "$Colors-Base-white")])])))
        (generateCSS "dark" (resolveEntry sampleTable
          (.obj [("bg", .obj [("primary", .str "$Colors-Base-white")])])))) :=
  css_blocks_light_dark samplePalette minimalMapped sampleTable
    "2026-01-01T00:00:00.000Z" _ _ rfl rfl rfl

end DesignTokens
